import Mathlib

set_option maxHeartbeats 1000000

/-!
Shallow embedding of the mcp-confirm server core (the elicitation protocol
engine, the confirmation log writer, and the log search/analytics engine).
Pure data processing is translated directly from the TypeScript source;
external builtins (the JSON-RPC channel, `fs`, `Date`, `JSON.parse`) appear
as explicit parameters or as Lean models of the builtin restricted to the
value shapes this program produces.  Machine numbers of the source are
JavaScript numbers holding integer values; they are modelled as `Int`
(an `Option Int` where the value `NaN` is reachable, `none` standing for
`NaN`).
-/

namespace McpConfirm

/-- Lowercasing as performed by `String.prototype.toLowerCase`; the mapping
is the identity on every keyword character the program compares against
apart from ASCII letters, so ASCII lowercasing is the faithful fragment. -/
def jsToLowerCase (s : String) : String := String.mk (s.toList.map Char.toLower)

/-- Containment of `needle` as a contiguous run inside the second list,
scanning left to right. -/
def listContains (needle : List Char) : List Char → Bool
  | [] => needle.isEmpty
  | c :: t => needle.isPrefixOf (c :: t) || listContains needle t

/-- Model of `String.prototype.includes hay.includes needle`. -/
def jsIncludes (hay needle : String) : Bool :=
  listContains needle.toList hay.toList

/-- Whitespace recognised by `parseInt` when skipping a leading run. -/
def isJsSpace (c : Char) : Bool :=
  c = ' ' || c = '\t' || c = '\n' || c = '\r'

/-- Accumulate a decimal digit run into a natural number. -/
def digitsToNat : List Char → Nat → Nat
  | [], acc => acc
  | c :: t, acc => digitsToNat t (acc * 10 + (c.toNat - 48))

/-- Model of the JavaScript `parseInt(s, 10)` builtin: skip leading
whitespace, read an optional sign and then a maximal decimal digit run;
the result is `none` (standing for `NaN`) when no digit is found. -/
def jsParseInt (s : String) : Option Int :=
  let cs := s.toList.dropWhile isJsSpace
  let signAndRest : Int × List Char :=
    match cs with
    | '-' :: t => (-1, t)
    | '+' :: t => (1, t)
    | t => (1, t)
  let ds := signAndRest.2.takeWhile Char.isDigit
  if ds.isEmpty then none
  else some (signAndRest.1 * (digitsToNat ds 0 : Int))

/-- JavaScript values that this program ever stores inside an elicitation
response `content` mapping or a schema `default`: the JSON scalars. -/
inductive JsVal where
  | null
  | bool (b : Bool)
  | num (n : Int)
  | str (s : String)
deriving Repr, DecidableEq

/-- Model of the `String(x)` coercion on the scalar values above. -/
def JsVal.jsToString : JsVal → String
  | .null => "null"
  | .bool b => if b then "true" else "false"
  | .num n => toString n
  | .str s => s

/-- Hexadecimal digit character for a value below 16. -/
def hexDigit (n : Nat) : Char :=
  if n < 10 then Char.ofNat (48 + n) else Char.ofNat (87 + n)

/-- Escaping of one character as performed by `JSON.stringify` inside a
string literal. -/
def escapeJsonChar (c : Char) : List Char :=
  if c = '"' then ['\\', '"']
  else if c = '\\' then ['\\', '\\']
  else if c = '\n' then ['\\', 'n']
  else if c = '\r' then ['\\', 'r']
  else if c = '\t' then ['\\', 't']
  else if c.toNat < 32 then
    ['\\', 'u', '0', '0', hexDigit (c.toNat / 16), hexDigit (c.toNat % 16)]
  else [c]

/-- Quote and escape a string as a JSON string literal. -/
def jsonQuote (s : String) : String :=
  "\"" ++ String.mk (s.toList.foldr (fun c acc => escapeJsonChar c ++ acc) []) ++ "\""

/-- Serialization of one scalar by `JSON.stringify`. -/
def JsVal.toJson : JsVal → String
  | .null => "null"
  | .bool b => if b then "true" else "false"
  | .num n => toString n
  | .str s => jsonQuote s

/-- Outcome tag of an elicitation response. -/
inductive ElicitAction where
  | accept
  | decline
  | cancel
deriving Repr, DecidableEq

/-- Wire spelling of the action tag. -/
def ElicitAction.tag : ElicitAction → String
  | .accept => "accept"
  | .decline => "decline"
  | .cancel => "cancel"

/-- The `response` member of a log entry: an action tag and, on accept, a
content mapping of field name to value (`content` key order is the JS
object insertion order, modelled by the list order). -/
structure ElicitResponse where
  action : ElicitAction
  content : Option (List (String × JsVal)) := none
deriving Repr, DecidableEq

/-- Model of `JSON.stringify(entry.response)`: the `action` key is written
first and a missing `content` is omitted, matching the insertion order of
the object literals the program builds. -/
def serializeResponse (r : ElicitResponse) : String :=
  let actionField := jsonQuote "action" ++ ":" ++ jsonQuote r.action.tag
  match r.content with
  | none => "\x7b" ++ actionField ++ "\x7d"
  | some fields =>
      let body := String.intercalate ","
        (fields.map (fun kv => jsonQuote kv.1 ++ ":" ++ JsVal.toJson kv.2))
      "\x7b" ++ actionField ++ "," ++ jsonQuote "content" ++ ":" ++
        "\x7b" ++ body ++ "\x7d" ++ "\x7d"

/-- One property of a requested schema (`type` plus the optional decorations
the program writes). -/
structure SchemaProp where
  type : String
  title : Option String := none
  description : Option String := none
  enum : Option (List String) := none
  format : Option String := none
  minimum : Option Int := none
  maximum : Option Int := none
  defaultVal : Option JsVal := none
deriving Repr, DecidableEq

/-- The `requestedSchema` of an elicitation request; `properties` keeps the
JS object insertion order as list order. -/
structure ElicitationSchema where
  properties : List (String × SchemaProp)
  required : Option (List String) := none
deriving Repr, DecidableEq

/-- The `ElicitationParams` interface: message, requested schema, and an
optional caller-supplied timeout. -/
structure ElicitationParams where
  message : String
  requestedSchema : ElicitationSchema
  timeoutMs : Option Int := none
deriving Repr, DecidableEq

/-- The `ConfirmationLogEntry` interface: one record of the confirmation
history log. -/
structure ConfirmationLogEntry where
  timestamp : String
  confirmationType : String
  request : ElicitationParams
  response : ElicitResponse
  responseTimeMs : Int
  success : Bool
  error : Option String := none
deriving Repr, DecidableEq

/-- The `ServerConfig` interface.  `defaultTimeoutMs` is produced by
`parseInt` and may therefore be `NaN`, modelled as `none`. -/
structure ServerConfig where
  confirmationHistoryPath : String
  defaultTimeoutMs : Option Int
deriving Repr, DecidableEq

/-- Translation of `loadConfig`: each environment variable is an optional
string, the empty string being falsy under the `||` fallbacks. -/
def loadConfig (logPathEnv timeoutEnv : Option String) : ServerConfig :=
  let defaultPath := ".mcp-data/confirmation_history.log"
  let defaultTimeoutStr := "180000"
  { confirmationHistoryPath :=
      match logPathEnv with
      | some s => if s = "" then defaultPath else s
      | none => defaultPath
    defaultTimeoutMs :=
      jsParseInt (match timeoutEnv with
        | some s => if s = "" then defaultTimeoutStr else s
        | none => defaultTimeoutStr) }

/-- Translation of `getConfirmationType`: cascade of case-insensitive
substring tests over the request message, first match wins. -/
def getConfirmationType (params : ElicitationParams) : String :=
  let message := jsToLowerCase params.message
  if jsIncludes message "confirm" || jsIncludes message "確認" then "confirmation"
  else if jsIncludes message "rate" || jsIncludes message "評価" then "rating"
  else if jsIncludes message "clarify" || jsIncludes message "明確" then "clarification"
  else if jsIncludes message "verify" || jsIncludes message "検証" then "verification"
  else if jsIncludes message "yes/no" || jsIncludes message "はい/いいえ" then "yes_no"
  else "custom"

/-- Modelled from the spec: the fixed priority list of (keyword variants,
category) pairs of section 4.2 step 2, in the stated order. -/
def specPriorityList : List (List String × String) :=
  [(["confirm", "確認"], "confirmation"),
   (["rate", "評価"], "rating"),
   (["clarify", "明確"], "clarification"),
   (["verify", "検証"], "verification"),
   (["yes/no", "はい/いいえ"], "yes_no")]

/-- Modelled from the spec: ordered dispatch over a (predicate, category)
list, evaluated first-match-wins, defaulting to `custom`. -/
def classifyFirstMatch (message : String) : List (List String × String) → String
  | [] => "custom"
  | (kws, cat) :: rest =>
      if kws.any (fun k => jsIncludes (jsToLowerCase message) k) then cat
      else classifyFirstMatch message rest

/-- Modelled from the spec: the classifier of section 4.2 step 2 as an
explicit ordered-rule dispatch. -/
def specOrderedClassify (message : String) : String :=
  classifyFirstMatch message specPriorityList

/-- Sample schema with no properties, used in concrete instantiations. -/
def emptySchema : ElicitationSchema := { properties := [] }

/-- Effective timeout selection inside `sendElicitationRequest`: the
truthiness expression `params.timeoutMs || this.config.defaultTimeoutMs`,
where an absent value and `0` are falsy. -/
def effectiveTimeoutMs (params : ElicitationParams) (cfg : ServerConfig) : Option Int :=
  match params.timeoutMs with
  | none => cfg.defaultTimeoutMs
  | some n => if n = 0 then cfg.defaultTimeoutMs else some n

/-- Result of one `fs` promise as seen by its awaiter: resolution or a
thrown error message. -/
abbrev FsResult := Except String Unit

/-- Boolean error test on an `Except` value. -/
def exceptIsErr {ε α : Type} : Except ε α → Bool
  | .error _ => true
  | .ok _ => false

/-- Observable outcome of one `logConfirmation` call. -/
structure LogWriteOutcome where
  appendAttempted : Bool
  debugMessages : List String
  thrownToCaller : Option String
deriving Repr, DecidableEq

/-- Translation of `ensureLogDirectory`: the `mkdir` rejection is caught and
turned into a debug message; nothing is rethrown. -/
def ensureLogDirectory (mkdirResult : FsResult) : List String :=
  match mkdirResult with
  | .ok _ => []
  | .error e => ["Failed to create log directory: " ++ e]

/-- Translation of `logConfirmation`: the directory ensure runs first and
cannot throw, so the append is always attempted; an append rejection is
caught by the surrounding try and only debug-logged. -/
def logConfirmation (mkdirResult appendResult : FsResult) : LogWriteOutcome :=
  let dirMsgs := ensureLogDirectory mkdirResult
  match appendResult with
  | .ok _ =>
      { appendAttempted := true, debugMessages := dirMsgs, thrownToCaller := none }
  | .error e =>
      { appendAttempted := true,
        debugMessages := dirMsgs ++ ["Failed to write confirmation log: " ++ e],
        thrownToCaller := none }

/-- Everything observable about one `sendElicitationRequest` call: the
timeout handed to the channel, the records passed to `logConfirmation`, the
log writer outcome, and the value returned or thrown to the caller. -/
structure SendOutcome where
  channelTimeout : Option Int
  loggedRecords : List ConfirmationLogEntry
  logOutcome : LogWriteOutcome
  result : Except String ElicitResponse

/-- Translation of `sendElicitationRequest`.  The external channel
(`server.request` under a timeout option) is a parameter mapping the passed
timeout to one reply or one thrown error message; the two wall-clock reads
are summarised by `timestamp` and `responseTimeMs`; the `fs` results
consumed by the inner `logConfirmation` call are parameters as well. -/
def sendElicitationRequest (cfg : ServerConfig) (params : ElicitationParams)
    (timestamp : String) (responseTimeMs : Int)
    (channel : Option Int → Except String ElicitResponse)
    (mkdirResult appendResult : FsResult) : SendOutcome :=
  let timeoutMs := effectiveTimeoutMs params cfg
  match channel timeoutMs with
  | .ok response =>
      let entry : ConfirmationLogEntry :=
        { timestamp := timestamp
          confirmationType := getConfirmationType params
          request := params
          response := response
          responseTimeMs := responseTimeMs
          success := true
          error := none }
      { channelTimeout := timeoutMs
        loggedRecords := [entry]
        logOutcome := logConfirmation mkdirResult appendResult
        result := .ok response }
  | .error msg =>
      let entry : ConfirmationLogEntry :=
        { timestamp := timestamp
          confirmationType := getConfirmationType params
          request := params
          response := { action := .cancel }
          responseTimeMs := responseTimeMs
          success := false
          error := some msg }
      { channelTimeout := timeoutMs
        loggedRecords := [entry]
        logOutcome := logConfirmation mkdirResult appendResult
        result := .error ("Elicitation failed: " ++ msg) }

/-- Sample request used in concrete instantiations. -/
def sampleParams : ElicitationParams :=
  { message := "Please confirm this action", requestedSchema := emptySchema }

/-- Sample request carrying an explicit zero timeout. -/
def zeroTimeoutParams : ElicitationParams :=
  { message := "m", requestedSchema := emptySchema, timeoutMs := some 0 }

/-- Configuration produced from an empty environment. -/
def sampleConfig : ServerConfig := loadConfig none none

/-- Epoch day number of a proleptic-Gregorian civil date, floor-division
days-from-civil algorithm (day 0 is 1970-01-01). -/
def daysFromCivil (y : Int) (m d : Nat) : Int :=
  let yAdj : Int := if m ≤ 2 then y - 1 else y
  let era : Int := yAdj.fdiv 400
  let yoe : Nat := (yAdj - era * 400).toNat
  let mp : Nat := if m ≤ 2 then m + 9 else m - 3
  let doy : Nat := (153 * mp + 2) / 5 + (d - 1)
  let doe : Nat := yoe * 365 + yoe / 4 - yoe / 100 + doy
  era * 146097 + (doe : Int) - 719468

/-- Civil date (year, month, day) of an epoch day number; inverse of
`daysFromCivil`. -/
def civilFromDays (z0 : Int) : Int × Nat × Nat :=
  let z := z0 + 719468
  let era : Int := z.fdiv 146097
  let doe : Nat := (z - era * 146097).toNat
  let yoe : Nat := (doe - doe / 1460 + doe / 36524 - doe / 146096) / 365
  let y : Int := (yoe : Int) + era * 400
  let doy : Nat := doe - (365 * yoe + yoe / 4 - yoe / 100)
  let mp : Nat := (5 * doy + 2) / 153
  let d : Nat := doy - (153 * mp + 2) / 5 + 1
  let m : Nat := if mp < 10 then mp + 3 else mp - 9
  (if m ≤ 2 then y + 1 else y, m, d)

/-- Gregorian leap-year test. -/
def isLeapYear (y : Int) : Bool :=
  (y % 4 == 0 && y % 100 != 0) || y % 400 == 0

/-- Number of days in a month, used by the date parser's range validation. -/
def daysInMonth (y : Int) (m : Nat) : Nat :=
  if m = 2 then (if isLeapYear y then 29 else 28)
  else if m = 4 ∨ m = 6 ∨ m = 9 ∨ m = 11 then 30
  else 31

/-- Epoch milliseconds of a UTC civil date and time of day. -/
def epochOfCivilMs (y : Int) (mo d hh mi ss ms : Nat) : Int :=
  daysFromCivil y mo d * 86400000 +
    ((hh * 3600000 + mi * 60000 + ss * 1000 + ms : Nat) : Int)

/-- Decimal value of a two-digit run. -/
def twoDigits (a b : Char) : Nat := (a.toNat - 48) * 10 + (b.toNat - 48)

/-- Clock-part parser for the ISO UTC shapes `HH:MM Z`, `HH:MM:SS Z` and
`HH:MM:SS.mmm Z` following the `T` separator. -/
def parseClock (y : Int) (mo d : Nat) : List Char → Option Int
  | h1 :: h2 :: ':' :: m1 :: m2 :: rest =>
      if h1.isDigit && h2.isDigit && m1.isDigit && m2.isDigit then
        let hh := twoDigits h1 h2
        let mi := twoDigits m1 m2
        if hh ≤ 23 && mi ≤ 59 then
          match rest with
          | ['Z'] => some (epochOfCivilMs y mo d hh mi 0 0)
          | ':' :: s1 :: s2 :: rest2 =>
              if s1.isDigit && s2.isDigit then
                let ss := twoDigits s1 s2
                if ss ≤ 59 then
                  match rest2 with
                  | ['Z'] => some (epochOfCivilMs y mo d hh mi ss 0)
                  | '.' :: f1 :: f2 :: f3 :: 'Z' :: [] =>
                      if f1.isDigit && f2.isDigit && f3.isDigit then
                        some (epochOfCivilMs y mo d hh mi ss
                          ((f1.toNat - 48) * 100 + (f2.toNat - 48) * 10 + (f3.toNat - 48)))
                      else none
                  | _ => none
                else none
              else none
          | _ => none
        else none
      else none
  | _ => none

/-- Character-level body of `jsDateParse`. -/
def jsDateParseChars : List Char → Option Int
  | y1 :: y2 :: y3 :: y4 :: '-' :: m1 :: m2 :: '-' :: d1 :: d2c :: rest =>
      if y1.isDigit && y2.isDigit && y3.isDigit && y4.isDigit &&
          m1.isDigit && m2.isDigit && d1.isDigit && d2c.isDigit then
        let y : Int := (((y1.toNat - 48) * 1000 + (y2.toNat - 48) * 100 +
          (y3.toNat - 48) * 10 + (y4.toNat - 48) : Nat) : Int)
        let mo := twoDigits m1 m2
        let dd := twoDigits d1 d2c
        if 1 ≤ mo && mo ≤ 12 && 1 ≤ dd && dd ≤ daysInMonth y mo then
          match rest with
          | [] => some (epochOfCivilMs y mo dd 0 0 0 0)
          | 'T' :: t => parseClock y mo dd t
          | _ => none
        else none
      else none
  | _ => none

/-- Model of the `new Date(string)` builtin restricted to the ISO-8601 UTC
shapes this program writes and groups by (a date, or a date-time suffixed
with `Z`); every other input stands for an Invalid Date, `none` playing the
role of a `NaN` time value. -/
def jsDateParse (s : String) : Option Int := jsDateParseChars s.toList

/-- Left-pad a number below 100 to two digits, as `padStart(2, "0")` does. -/
def pad2 (n : Nat) : String := if n < 10 then "0" ++ toString n else toString n

/-- Four-digit year formatting of `toISOString` for years 0 to 9999. -/
def pad4 (n : Nat) : String :=
  if n < 10 then "000" ++ toString n
  else if n < 100 then "00" ++ toString n
  else if n < 1000 then "0" ++ toString n
  else toString n

/-- Model of `new Date(ms).toISOString().split("T")[0]`: the UTC calendar
date portion in ISO form. -/
def toISODateString (ms : Int) : String :=
  let c := civilFromDays (ms.fdiv 86400000)
  pad4 c.1.toNat ++ "-" ++ pad2 c.2.1 ++ "-" ++ pad2 c.2.2

/-- Model of the JavaScript `<` comparison between two Date objects: false
whenever either time value is `NaN`. -/
def jsDateLt (a b : Option Int) : Bool :=
  match a, b with
  | some x, some y => decide (x < y)
  | _, _ => false

/-- Model of the JavaScript `>` comparison between two Date objects. -/
def jsDateGt (a b : Option Int) : Bool :=
  match a, b with
  | some x, some y => decide (x > y)
  | _, _ => false

/-- Model of `String.prototype.trim` on the character level. -/
def jsTrim (s : String) : String :=
  String.mk (((s.toList.dropWhile isJsSpace).reverse.dropWhile isJsSpace).reverse)

/-- Model of `split("\n")` on the character level. -/
def splitLines : List Char → List (List Char)
  | [] => [[]]
  | '\n' :: t => [] :: splitLines t
  | c :: t =>
      match splitLines t with
      | [] => [[c]]
      | l :: ls => (c :: l) :: ls

/-- The lines of the log content that survive
`content.trim().split("\n").filter(line => line.trim())`. -/
def retainedLines (content : String) : List String :=
  ((splitLines (jsTrim content).toList).map String.mk).filter
    (fun l => jsTrim l ≠ "")

/-- Model of `lines.map(line => JSON.parse(line))`: left-to-right, the first
thrown parse error aborts the whole map. -/
def parseAllLines (parseLine : String → Except String ConfirmationLogEntry) :
    List String → Except String (List ConfirmationLogEntry)
  | [] => .ok []
  | l :: ls =>
      match parseLine l with
      | .error e => .error e
      | .ok v =>
          match parseAllLines parseLine ls with
          | .error e => .error e
          | .ok vs => .ok (v :: vs)

/-- Translation of `readLogEntries`: the log file content is `none` when the
read rejects with `ENOENT` (yielding zero records), and the external
`JSON.parse` builtin is the `parseLine` parameter. -/
def readLogEntries (parseLine : String → Except String ConfirmationLogEntry)
    (file : Option String) : Except String (List ConfirmationLogEntry) :=
  match file with
  | none => .ok []
  | some content => parseAllLines parseLine (retainedLines content)

/-- The `LogSearchParams` interface; every member is optional and `none`
models an absent or wrongly-typed argument. -/
structure LogSearchParams where
  keyword : Option String := none
  confirmationType : Option String := none
  startDate : Option String := none
  endDate : Option String := none
  success : Option Bool := none
  timedOut : Option Bool := none
  minResponseTime : Option Int := none
  maxResponseTime : Option Int := none
  page : Option Int := none
  pageSize : Option Int := none
deriving Repr, DecidableEq

/-- Translation of `matchesKeyword`: an absent or empty keyword is falsy and
matches everything, otherwise a case-insensitive substring test against the
request message concatenated with the serialized response. -/
def matchesKeyword (entry : ConfirmationLogEntry) (keyword : Option String) : Bool :=
  match keyword with
  | none => true
  | some k =>
      if k = "" then true
      else
        let searchText :=
          jsToLowerCase (entry.request.message ++ " " ++ serializeResponse entry.response)
        jsIncludes searchText (jsToLowerCase k)

/-- Translation of `matchesType`: `!type || entry.confirmationType === type`. -/
def matchesType (entry : ConfirmationLogEntry) (ctype : Option String) : Bool :=
  match ctype with
  | none => true
  | some t => if t = "" then true else entry.confirmationType == t

/-- Translation of `matchesDateRange`: inclusive bounds through strict Date
comparisons, a falsy bound being skipped. -/
def matchesDateRange (entry : ConfirmationLogEntry)
    (startDate endDate : Option String) : Bool :=
  let entryDate := jsDateParse entry.timestamp
  if (match startDate with
      | some s => s ≠ "" && jsDateLt entryDate (jsDateParse s)
      | none => false) then false
  else if (match endDate with
      | some s => s ≠ "" && jsDateGt entryDate (jsDateParse s)
      | none => false) then false
  else true

/-- Translation of `matchesSuccess`. -/
def matchesSuccess (entry : ConfirmationLogEntry) (success : Option Bool) : Bool :=
  match success with
  | none => true
  | some b => entry.success == b

/-- Translation of `matchesTimeout`: the derived timed-out predicate is
`entry.error?.includes("timed out") || false`. -/
def matchesTimeout (entry : ConfirmationLogEntry) (timedOut : Option Bool) : Bool :=
  match timedOut with
  | none => true
  | some t =>
      let isTimedOut :=
        match entry.error with
        | some e => jsIncludes e "timed out"
        | none => false
      isTimedOut == t

/-- Translation of `matchesResponseTime`: inclusive numeric bounds. -/
def matchesResponseTime (entry : ConfirmationLogEntry)
    (minTime maxTime : Option Int) : Bool :=
  if (match minTime with
      | some m => decide (entry.responseTimeMs < m)
      | none => false) then false
  else if (match maxTime with
      | some m => decide (entry.responseTimeMs > m)
      | none => false) then false
  else true

/-- Translation of `filterLogEntries`: conjunction of the six matchers. -/
def filterLogEntries (entries : List ConfirmationLogEntry)
    (params : LogSearchParams) : List ConfirmationLogEntry :=
  entries.filter (fun entry =>
    matchesKeyword entry params.keyword &&
    matchesType entry params.confirmationType &&
    matchesDateRange entry params.startDate params.endDate &&
    matchesSuccess entry params.success &&
    matchesTimeout entry params.timedOut &&
    matchesResponseTime entry params.minResponseTime params.maxResponseTime)

/-- Comparator of the sort in `searchLogs`:
`new Date(b.timestamp).getTime() - new Date(a.timestamp).getTime()`; a `NaN`
difference is treated as 0 by the sort, as the ECMAScript sort does. -/
def sortCompareDesc (a b : ConfirmationLogEntry) : Int :=
  match jsDateParse b.timestamp, jsDateParse a.timestamp with
  | some tb, some ta => tb - ta
  | _, _ => 0

/-- Insert into a sorted list, before the first element not strictly
required to precede, preserving the relative order of ties. -/
def sortInsert {α : Type} (le : α → α → Bool) (x : α) : List α → List α
  | [] => [x]
  | y :: t => if le x y then x :: y :: t else y :: sortInsert le x t

/-- Stable sort by a boolean preorder.  `Array.prototype.sort` is stable and
for a consistent comparator every stable sort yields the same permutation,
so insertion sort is a faithful executable model of the builtin. -/
def stableSortBy {α : Type} (le : α → α → Bool) : List α → List α
  | [] => []
  | x :: t => sortInsert le x (stableSortBy le t)

/-- The sort step of `searchLogs`: newest timestamp first. -/
def sortLogEntries (l : List ConfirmationLogEntry) : List ConfirmationLogEntry :=
  stableSortBy (fun a b => decide (sortCompareDesc a b ≤ 0)) l

/-- Model of `Math.ceil(a / b)` on integer operands, `b` nonzero. -/
def jsCeilDiv (a b : Int) : Int := -(Int.fdiv (-a) b)

/-- Normalization of one slice index as `Array.prototype.slice` performs it:
negative indices count from the end, then both are clamped into the array. -/
def jsSliceIndex (len : Nat) (i : Int) : Nat :=
  if i < 0 then len - min (-i).toNat len else min i.toNat len

/-- Model of `Array.prototype.slice(start, stop)`. -/
def jsSlice {α : Type} (l : List α) (start stop : Int) : List α :=
  (l.take (jsSliceIndex l.length stop)).drop (jsSliceIndex l.length start)

/-- Falsy-or on a JavaScript number: `v || dflt` where an absent value and
`0` are falsy. -/
def jsOrInt (v : Option Int) (dflt : Int) : Int :=
  match v with
  | none => dflt
  | some n => if n = 0 then dflt else n

/-- The `LogSearchResult` interface. -/
structure LogSearchResult where
  entries : List ConfirmationLogEntry
  totalCount : Int
  currentPage : Int
  totalPages : Int
  pageSize : Int
deriving Repr, DecidableEq

/-- Translation of `searchLogs` minus the file read: filter, stable sort,
then paginate. -/
def searchLogs (entries : List ConfirmationLogEntry)
    (params : LogSearchParams) : LogSearchResult :=
  let filteredEntries := filterLogEntries entries params
  let sorted := sortLogEntries filteredEntries
  let page := jsOrInt params.page 1
  let pageSize := jsOrInt params.pageSize 10
  let totalCount : Int := sorted.length
  let totalPages := jsCeilDiv totalCount pageSize
  let startIndex := (page - 1) * pageSize
  let endIndex := startIndex + pageSize
  { entries := jsSlice sorted startIndex endIndex
    totalCount := totalCount
    currentPage := page
    totalPages := totalPages
    pageSize := pageSize }

/-- Argument normalization of `handleSearchLogs`: a missing page becomes 1, a
missing pageSize becomes 10, and a supplied pageSize is capped above by
`Math.min(pageSize, 100)` with no lower cap. -/
def handleSearchLogsParams (args : LogSearchParams) : LogSearchParams :=
  { args with
    page := some (match args.page with | some p => p | none => 1)
    pageSize := some (match args.pageSize with | some v => min v 100 | none => 10) }

/-- Translation of `handleSearchLogs` minus the file read and formatting. -/
def handleSearchLogs (entries : List ConfirmationLogEntry)
    (args : LogSearchParams) : LogSearchResult :=
  searchLogs entries (handleSearchLogsParams args)

/-- Insert one entry into the grouping accumulator, creating its key at the
end on first sight, as JS object insertion order does. -/
def groupUpsert (groups : List (String × List ConfirmationLogEntry))
    (key : String) (e : ConfirmationLogEntry) :
    List (String × List ConfirmationLogEntry) :=
  match groups with
  | [] => [(key, [e])]
  | (k, es) :: rest =>
      if k = key then (k, es ++ [e]) :: rest
      else (k, es) :: groupUpsert rest key e

/-- Group key selector of `groupLogsByField`.  `getHours` reads the clock in
the environment's local time zone, modelled by the `tzOffsetMinutes`
parameter (minutes east of UTC added to the UTC instant); an invalid
timestamp gives the hour key "NaN:00" and makes `toISOString` throw for the
day key. -/
def groupKeyFor (tzOffsetMinutes : Int) (field : String)
    (e : ConfirmationLogEntry) : Except String String :=
  match field with
  | "confirmationType" => .ok e.confirmationType
  | "success" => .ok (if e.success then "Success" else "Failed")
  | "hour" =>
      match jsDateParse e.timestamp with
      | some ms =>
          .ok (pad2 (((ms + tzOffsetMinutes * 60000).fdiv 3600000).emod 24).toNat ++ ":00")
      | none => .ok "NaN:00"
  | "day" =>
      match jsDateParse e.timestamp with
      | some ms => .ok (toISODateString ms)
      | none => .error "Invalid time value"
  | _ => .ok "Unknown"

/-- Accumulator loop of `groupLogsByField`. -/
def groupLogsAux (tzOffsetMinutes : Int) (field : String) :
    List ConfirmationLogEntry → List (String × List ConfirmationLogEntry) →
    Except String (List (String × List ConfirmationLogEntry))
  | [], acc => .ok acc
  | e :: rest, acc =>
      match groupKeyFor tzOffsetMinutes field e with
      | .error err => .error err
      | .ok k => groupLogsAux tzOffsetMinutes field rest (groupUpsert acc k e)

/-- Translation of `groupLogsByField`. -/
def groupLogsByField (tzOffsetMinutes : Int)
    (entries : List ConfirmationLogEntry) (field : String) :
    Except String (List (String × List ConfirmationLogEntry)) :=
  groupLogsAux tzOffsetMinutes field entries []

/-- The selection property that `handleClarifyIntent` adds when options are
present. -/
def selectOptionProp (options : List JsVal) : SchemaProp :=
  { type := "string"
    title := some "Select Option"
    description := some "Which option best matches your intent?"
    enum := some (options.map JsVal.jsToString) }

/-- The free-text clarification property that `handleClarifyIntent` always
adds last. -/
def clarificationProp : SchemaProp :=
  { type := "string"
    title := some "Additional clarification"
    description := some "Please provide any additional details or explanation" }

/-- Translation of the schema construction inside `handleClarifyIntent`:
start from empty properties, add `selected_option` first when a non-empty
options array was supplied, then always add `clarification`. -/
def handleClarifyIntentSchema (options : Option (List JsVal)) : ElicitationSchema :=
  let base : ElicitationSchema := { properties := [], required := some ["clarification"] }
  let withSelect :=
    match options with
    | some os =>
        if os.length > 0 then
          { base with properties := base.properties ++ [("selected_option", selectOptionProp os)] }
        else base
    | none => base
  { withSelect with properties := withSelect.properties ++ [("clarification", clarificationProp)] }

/-- Log entry with a given timestamp, used in concrete instantiations. -/
def entryAt (ts : String) : ConfirmationLogEntry :=
  { timestamp := ts
    confirmationType := "confirmation"
    request := sampleParams
    response := { action := .accept, content := some [("confirmed", .bool true)] }
    responseTimeMs := 1200
    success := true }

/-- Sample record timestamped 10:15:00Z. -/
def entry1015 : ConfirmationLogEntry := entryAt "2025-08-04T10:15:00Z"

/-- Sample record timestamped 10:45:00Z. -/
def entry1045 : ConfirmationLogEntry := entryAt "2025-08-04T10:45:00Z"

/-- Toy stand-in for the external `JSON.parse` builtin: accepts the line
"good" and throws on every other line. -/
def toyParseLine (l : String) : Except String ConfirmationLogEntry :=
  if l = "good" then .ok (entryAt "2025-08-04T10:15:00Z")
  else .error "Unexpected token"

end McpConfirm

namespace McpConfirm

/-- C2: for every request message, the inferred confirmationType is decided
by case-insensitive substring checks in the fixed priority order confirm,
rate, clarify, verify, yes/no (Japanese variants counting for the same
category), first match wins, defaulting to "custom"; in particular a message
containing both "rate" and "confirm" is classified "confirmation". -/
theorem confirmation_type_matches_ordered_dispatch :
    (∀ params : ElicitationParams,
        getConfirmationType params = specOrderedClassify params.message) ∧
    getConfirmationType
      { message := "Please rate and confirm the plan",
        requestedSchema := emptySchema } = "confirmation" ∧
    getConfirmationType
      { message := "No keyword here", requestedSchema := emptySchema } = "custom" := by
  refine ⟨fun params => ?_, by decide, by decide⟩
  simp only [getConfirmationType, specOrderedClassify, specPriorityList,
    classifyFirstMatch, List.any_cons, List.any_nil, Bool.or_false]

/-- C1 (amended): every call of `sendElicitationRequest` writes exactly one
confirmation record; on channel success the record has success true and no
error and the channel outcome is returned unchanged whatever the action; on
channel failure the record has success false, a cancel response with no
content, and an error field equal to the failure message (empty exactly when
that message is empty), while a distinguishable failure is propagated to the
caller; the error field is present iff success is false. -/
theorem send_writes_one_record_and_classifies_result
    (cfg : ServerConfig) (params : ElicitationParams) (ts : String) (rt : Int)
    (channel : Option Int → Except String ElicitResponse)
    (mkdirResult appendResult : FsResult) :
    let out := sendElicitationRequest cfg params ts rt channel mkdirResult appendResult
    out.loggedRecords.length = 1 ∧
    (∀ resp, channel (effectiveTimeoutMs params cfg) = .ok resp →
        out.result = .ok resp ∧
        ∀ r ∈ out.loggedRecords,
          r.success = true ∧ r.error = none ∧ r.response = resp) ∧
    (∀ msg, channel (effectiveTimeoutMs params cfg) = .error msg →
        out.result = .error ("Elicitation failed: " ++ msg) ∧
        ∀ r ∈ out.loggedRecords,
          r.success = false ∧ r.error = some msg ∧
          r.response = { action := .cancel, content := none }) ∧
    (∀ r ∈ out.loggedRecords, (r.error ≠ none ↔ r.success = false)) := by
  dsimp only [sendElicitationRequest]
  cases h : channel (effectiveTimeoutMs params cfg) <;>
    simp [h, ElicitResponse.mk.injEq]

/-- Witness for C1: a concrete timed-out channel call propagates the prefixed
failure message to the caller. -/
theorem send_writes_one_record_and_classifies_result_witness :
    (sendElicitationRequest sampleConfig sampleParams "2025-08-04T10:00:00.000Z" 5
        (fun _ => .error "Request timed out") (.ok ()) (.ok ())).result
      = .error "Elicitation failed: Request timed out" := by
  have h := send_writes_one_record_and_classifies_result sampleConfig sampleParams
    "2025-08-04T10:00:00.000Z" 5 (fun _ => .error "Request timed out") (.ok ()) (.ok ())
  exact (h.2.2.1 "Request timed out" rfl).1

/-- C1 counterexample: a channel failure whose thrown message is the empty
string is logged with `error` equal to the empty string, so the record does
not always carry a non-empty error string as the claim states. -/
theorem send_failure_can_log_empty_error_string :
    ((sendElicitationRequest sampleConfig sampleParams "t" 0
        (fun _ => .error "") (.ok ()) (.ok ())).loggedRecords.map
          ConfirmationLogEntry.error) = [some ""] ∧
    ((sendElicitationRequest sampleConfig sampleParams "t" 0
        (fun _ => .error "") (.ok ()) (.ok ())).loggedRecords.map
          ConfirmationLogEntry.success) = [false] := by
  exact ⟨rfl, rfl⟩

/-- C5: the README documents that the configured default timeout is accepted
only within [5000 ms, 1800000 ms] and that out-of-range values fall back to
the built-in default, but `loadConfig` performs no bounds check at all: the
out-of-range environment value 1000 is accepted verbatim and becomes the
effective default timeout used by send. -/
theorem load_config_accepts_out_of_range_timeout :
    (loadConfig none (some "1000")).defaultTimeoutMs = some 1000 ∧
    ¬ (5000 ≤ (1000 : Int) ∧ (1000 : Int) ≤ 1800000) ∧
    effectiveTimeoutMs { message := "m", requestedSchema := emptySchema }
      (loadConfig none (some "1000")) = some 1000 := by
  refine ⟨by decide, by decide, by decide⟩

/-- C7: a directory-creation or append failure is swallowed and only
debug-logged, never thrown to the protocol caller; a failed ensure still
attempts the append; and the send transaction's returned result and logged
record are unchanged by any log I/O failure. -/
theorem log_io_failure_never_escapes
    (mkdirResult appendResult : FsResult)
    (cfg : ServerConfig) (params : ElicitationParams) (ts : String) (rt : Int)
    (channel : Option Int → Except String ElicitResponse) :
    (logConfirmation mkdirResult appendResult).thrownToCaller = none ∧
    (logConfirmation mkdirResult appendResult).appendAttempted = true ∧
    (exceptIsErr mkdirResult = true ∨ exceptIsErr appendResult = true →
        (logConfirmation mkdirResult appendResult).debugMessages ≠ []) ∧
    (sendElicitationRequest cfg params ts rt channel mkdirResult appendResult).result
      = (sendElicitationRequest cfg params ts rt channel (.ok ()) (.ok ())).result ∧
    (sendElicitationRequest cfg params ts rt channel mkdirResult appendResult).loggedRecords
      = (sendElicitationRequest cfg params ts rt channel (.ok ()) (.ok ())).loggedRecords := by
  refine ⟨?_, ?_, ?_, ?_, ?_⟩ <;>
    cases mkdirResult <;> cases appendResult <;>
      simp [logConfirmation, ensureLogDirectory, exceptIsErr, sendElicitationRequest] <;>
        cases h : channel (effectiveTimeoutMs params cfg) <;> simp [h]

/-- Witness for C7: with both `fs` operations failing concretely, nothing is
thrown to the caller and the failures leave debug messages behind. -/
theorem log_io_failure_never_escapes_witness :
    (logConfirmation (Except.error "EACCES") (Except.error "ENOSPC")).thrownToCaller
        = none ∧
    (logConfirmation (Except.error "EACCES") (Except.error "ENOSPC")).debugMessages
        ≠ [] := by
  have h := log_io_failure_never_escapes (Except.error "EACCES") (Except.error "ENOSPC")
    sampleConfig sampleParams "t" 0 (fun _ => Except.ok { action := ElicitAction.accept })
  exact ⟨h.1, h.2.2.1 (Or.inl rfl)⟩

/-- C10: the effective timeout is `params.timeoutMs || defaultTimeoutMs`, so
a caller-supplied timeout of 0 (or an absent one) is silently replaced by
the configured process default, and that default is what reaches the
external channel call. -/
theorem zero_timeout_replaced_by_default
    (cfg : ServerConfig) (params : ElicitationParams) (ts : String) (rt : Int)
    (channel : Option Int → Except String ElicitResponse)
    (mkdirResult appendResult : FsResult)
    (h : params.timeoutMs = some 0 ∨ params.timeoutMs = none) :
    effectiveTimeoutMs params cfg = cfg.defaultTimeoutMs ∧
    (sendElicitationRequest cfg params ts rt channel mkdirResult appendResult).channelTimeout
      = cfg.defaultTimeoutMs := by
  have he : effectiveTimeoutMs params cfg = cfg.defaultTimeoutMs := by
    rcases h with h | h <;> simp [effectiveTimeoutMs, h]
  refine ⟨he, ?_⟩
  dsimp only [sendElicitationRequest]
  cases hc : channel (effectiveTimeoutMs params cfg) <;> simp [hc, he]

/-- Witness for C10: a request with an explicit zero timeout uses the
configured 180000 ms default. -/
theorem zero_timeout_replaced_by_default_witness :
    effectiveTimeoutMs zeroTimeoutParams sampleConfig = some 180000 := by
  have h := zero_timeout_replaced_by_default sampleConfig zeroTimeoutParams "t" 0
    (fun _ => Except.ok { action := ElicitAction.accept }) (Except.ok ()) (Except.ok ())
    (Or.inl rfl)
  exact h.1.trans (by decide)

/-- C4: a record is included in the search result iff it satisfies every
supplied predicate (logical AND of the six matchers); the derived timedOut
predicate holds iff the error string contains the timeout marker
"timed out", and a record with no error field never matches timedOut true. -/
theorem filter_is_conjunction_and_timeout_is_derived :
    (∀ entries params e,
        e ∈ filterLogEntries entries params ↔
          e ∈ entries ∧
          matchesKeyword e params.keyword = true ∧
          matchesType e params.confirmationType = true ∧
          matchesDateRange e params.startDate params.endDate = true ∧
          matchesSuccess e params.success = true ∧
          matchesTimeout e params.timedOut = true ∧
          matchesResponseTime e params.minResponseTime params.maxResponseTime = true) ∧
    (∀ e : ConfirmationLogEntry, e.error = none →
        matchesTimeout e (some true) = false) ∧
    (∀ (e : ConfirmationLogEntry) s, e.error = some s →
        (matchesTimeout e (some true) = true ↔ jsIncludes s "timed out" = true)) := by
  refine ⟨fun entries params e => ?_, fun e he => ?_, fun e s hs => ?_⟩
  · simp [filterLogEntries, List.mem_filter, Bool.and_eq_true, and_assoc]
  · simp [matchesTimeout, he]
  · simp [matchesTimeout, hs]

/-- Witness for C4: the concrete sample record carries no error, so the
derived timedOut predicate rejects it. -/
theorem filter_is_conjunction_and_timeout_is_derived_witness :
    matchesTimeout (entryAt "2025-08-04T10:15:00Z") (some true) = false := by
  exact filter_is_conjunction_and_timeout_is_derived.2.1
    (entryAt "2025-08-04T10:15:00Z") rfl

/-- Helper: the left-to-right line map fails whenever any listed line fails
to parse. -/
theorem parseAllLines_isErr_of_mem (p : String → Except String ConfirmationLogEntry) :
    ∀ (ls : List String) (l : String), l ∈ ls → exceptIsErr (p l) = true →
      exceptIsErr (parseAllLines p ls) = true := by
  intro ls
  induction ls with
  | nil => intro l hl _; cases hl
  | cons a t ih =>
      intro l hl he
      rcases List.mem_cons.mp hl with h | h
      · subst h
        unfold parseAllLines
        cases hp : p l with
        | error e => simp [exceptIsErr]
        | ok v => rw [hp] at he; simp [exceptIsErr] at he
      · unfold parseAllLines
        cases hp : p a with
        | error e => simp [exceptIsErr]
        | ok v =>
            have hrec := ih l h he
            cases hq : parseAllLines p t with
            | error e2 => simp [exceptIsErr]
            | ok vs => rw [hq] at hrec; simp [exceptIsErr] at hrec

/-- Helper: a fully successful line map means every listed line parses. -/
theorem parseAllLines_ok_all (p : String → Except String ConfirmationLogEntry) :
    ∀ (ls : List String) vs, parseAllLines p ls = .ok vs →
      ∀ l ∈ ls, exceptIsErr (p l) = false := by
  intro ls
  induction ls with
  | nil => intro vs _ l hl; cases hl
  | cons a t ih =>
      intro vs hok l hl
      unfold parseAllLines at hok
      rcases List.mem_cons.mp hl with h | h
      · subst h
        cases hp : p l with
        | error e => rw [hp] at hok; cases hok
        | ok v => simp [exceptIsErr]
      · cases hp : p a with
        | error e => rw [hp] at hok; cases hok
        | ok v =>
            rw [hp] at hok
            cases hq : parseAllLines p t with
            | error e2 => rw [hq] at hok; cases hok
            | ok vs2 => exact ih vs2 hq l h

/-- C6: an absent log file reads as zero records and is not an error, while
any retained line that fails to parse makes the whole read fail — a
successful read certifies that every retained line parsed, so no partial
result is ever produced. -/
theorem read_absent_is_empty_and_malformed_is_hard_error :
    (∀ p, readLogEntries p none = .ok []) ∧
    (∀ p content l, l ∈ retainedLines content → exceptIsErr (p l) = true →
        exceptIsErr (readLogEntries p (some content)) = true) ∧
    (∀ p content entries, readLogEntries p (some content) = .ok entries →
        ∀ l ∈ retainedLines content, exceptIsErr (p l) = false) := by
  refine ⟨fun p => rfl, fun p content l hl he => ?_, fun p content entries h l hl => ?_⟩
  · exact parseAllLines_isErr_of_mem p _ l hl he
  · exact parseAllLines_ok_all p _ entries h l hl

/-- Witness for C6: with a concrete malformed second line, the whole read
errors out. -/
theorem read_absent_is_empty_and_malformed_is_hard_error_witness :
    exceptIsErr (readLogEntries toyParseLine (some "good\nbad")) = true := by
  exact read_absent_is_empty_and_malformed_is_hard_error.2.1
    toyParseLine "good\nbad" "bad" (by decide) rfl

/-- C8: whenever a non-empty list of selectable options is supplied, the
built clarify schema offers the `selected_option` field, whose enumeration
is exactly the stringified options, ahead of the free-text `clarification`
field. -/
theorem clarify_options_precede_free_text
    (options : List JsVal) (h : options ≠ []) :
    (handleClarifyIntentSchema (some options)).properties.map Prod.fst
      = ["selected_option", "clarification"] ∧
    ((handleClarifyIntentSchema (some options)).properties.head?.map
        (fun kv => kv.2.enum)) = some (some (options.map JsVal.jsToString)) := by
  have hlen : options.length > 0 := List.length_pos.mpr h
  simp [handleClarifyIntentSchema, hlen, selectOptionProp]

/-- Witness for C8: two concrete options are offered ahead of the free-text
field. -/
theorem clarify_options_precede_free_text_witness :
    (handleClarifyIntentSchema
        (some [JsVal.str "Node.js", JsVal.str "Python"])).properties.map Prod.fst
      = ["selected_option", "clarification"] := by
  exact (clarify_options_precede_free_text [JsVal.str "Node.js", JsVal.str "Python"]
    (by decide)).1

/-- C9 (amended): grouping by hour assigns the two-digit local hour of the
timestamp followed by ":00" — the UTC instant shifted by the environment's
UTC offset — so the key equals the timestamp's UTC hour exactly when that
offset is zero: at offset zero the records at 10:15:00Z and 10:45:00Z are
both placed in the single group "10:00"; grouping by day assigns the UTC
calendar-date portion of the timestamp in ISO form, offset-independent. -/
theorem group_by_hour_is_local_and_day_is_utc :
    (∀ tz (e : ConfirmationLogEntry) ms, jsDateParse e.timestamp = some ms →
        groupKeyFor tz "hour" e
          = .ok (pad2 (((ms + tz * 60000).fdiv 3600000).emod 24).toNat ++ ":00")) ∧
    (∀ (e : ConfirmationLogEntry) ms, jsDateParse e.timestamp = some ms →
        groupKeyFor 0 "hour" e
          = .ok (pad2 ((ms.fdiv 3600000).emod 24).toNat ++ ":00")) ∧
    (∀ tz (e : ConfirmationLogEntry) ms, jsDateParse e.timestamp = some ms →
        groupKeyFor tz "day" e = .ok (toISODateString ms)) ∧
    groupLogsByField 0 [entry1015, entry1045] "hour"
      = .ok [("10:00", [entry1015, entry1045])] ∧
    groupLogsByField 0 [entry1015, entry1045] "day"
      = .ok [("2025-08-04", [entry1015, entry1045])] := by
  refine ⟨fun tz e ms hms => ?_, fun e ms hms => ?_, fun tz e ms hms => ?_,
    by rfl, by rfl⟩
  · simp [groupKeyFor, hms]
  · simp [groupKeyFor, hms]
  · simp [groupKeyFor, hms]

/-- Witness for C9: the day key of the concrete 10:15:00Z record is its UTC
date. -/
theorem group_by_hour_is_local_and_day_is_utc_witness :
    groupKeyFor 0 "day" entry1015 = .ok (toISODateString 1754302500000) := by
  exact group_by_hour_is_local_and_day_is_utc.2.2.1 0 entry1015 1754302500000 (by decide)

/-- C9 counterexample: in an environment at UTC offset +05:30 (330 minutes
east), `getHours` reads 15 and 16, so the records at 10:15:00Z and
10:45:00Z land in two different groups, neither of them "10:00" — the
claimed grouping is not what the code computes in every environment. -/
theorem group_by_hour_depends_on_timezone :
    groupLogsByField 330 [entry1015, entry1045] "hour"
      = .ok [("15:00", [entry1015]), ("16:00", [entry1045])] := by rfl

/-- Helper: falsy-or on a present number. -/
theorem jsOrInt_some (n d : Int) : jsOrInt (some n) d = if n = 0 then d else n := rfl

/-- Helper: falsy-or on an absent number. -/
theorem jsOrInt_none (d : Int) : jsOrInt none d = d := rfl

/-- Helper: a slice at nonnegative indices is a drop followed by a take. -/
theorem jsSlice_coe_nat {α : Type} (l : List α) (a b : Nat) :
    jsSlice l (a : Int) (b : Int) = (l.drop a).take (b - a) := by
  unfold jsSlice jsSliceIndex
  have ha : ¬ ((a : Int) < 0) := by omega
  have hb : ¬ ((b : Int) < 0) := by omega
  simp only [ha, hb, if_false, Int.toNat_natCast]
  rcases le_or_lt a l.length with h2 | h2
  · rcases le_or_lt b l.length with h1 | h1
    · rw [min_eq_left h2, min_eq_left h1, List.drop_take]
    · rw [min_eq_left h2, min_eq_right (le_of_lt h1), List.take_length,
        List.take_of_length_le]
      rw [List.length_drop]
      omega
  · have hlen : l.length ≤ a := le_of_lt h2
    rw [min_eq_right hlen]
    have hra : l.drop a = [] := List.drop_eq_nil_of_le hlen
    rw [hra, List.take_nil]
    apply List.drop_eq_nil_of_le
    rw [List.length_take]
    omega

/-- Helper: chunking a list into `k` consecutive windows of width `s` and
flattening gives the list back whenever `k * s` covers its length. -/
theorem flatten_take_chunks {α : Type} :
    ∀ (k : Nat) (l : List α) (s : Nat), 0 < s → l.length ≤ k * s →
      List.flatten ((List.range k).map (fun p => (l.drop (p * s)).take s)) = l := by
  intro k
  induction k with
  | zero =>
      intro l s _ hlen
      simp only [Nat.zero_mul, Nat.le_zero] at hlen
      rw [List.length_eq_zero.mp hlen]
      simp
  | succ k ih =>
      intro l s hs hlen
      have hlen2 : l.length ≤ k * s + s := by
        rw [Nat.succ_mul] at hlen
        exact hlen
      rw [List.range_succ_eq_map, List.map_cons, List.map_map, List.flatten_cons]
      have htail : (List.range k).map
            ((fun p => (l.drop (p * s)).take s) ∘ Nat.succ)
          = (List.range k).map (fun p => ((l.drop s).drop (p * s)).take s) := by
        apply List.map_congr_left
        intro p _
        simp only [Function.comp_apply]
        rw [List.drop_drop, Nat.succ_mul]
        congr 2
        omega
      rw [htail, ih (l.drop s) s hs (by rw [List.length_drop]; omega)]
      simp only [Nat.zero_mul, List.drop_zero]
      exact List.take_append_drop s l

/-- Helper: the ceiling division covers the numerator. -/
theorem le_jsCeilDiv_mul (n : Nat) (s : Int) (hs : 1 ≤ s) :
    (n : Int) ≤ jsCeilDiv n s * s := by
  unfold jsCeilDiv
  rw [Int.fdiv_eq_ediv _ (by omega)]
  have h := Int.ediv_mul_le (-(n : Int)) (show s ≠ 0 by omega)
  linarith

/-- Helper: the ceiling division of a natural count by a positive size is
nonnegative. -/
theorem jsCeilDiv_nonneg (n : Nat) (s : Int) (hs : 1 ≤ s) : 0 ≤ jsCeilDiv n s := by
  by_contra hneg
  push_neg at hneg
  have hb := le_jsCeilDiv_mul n s hs
  have h1 : jsCeilDiv n s ≤ -1 := by omega
  have h2 : jsCeilDiv n s * s ≤ (-1) * s :=
    mul_le_mul_of_nonneg_right h1 (by omega)
  have h3 : (0 : Int) ≤ (n : Int) := Int.natCast_nonneg n
  linarith

/-- Helper: natural-number form of the covering bound. -/
theorem nat_le_ceil_toNat_mul (n : Nat) (s : Int) (hs : 1 ≤ s) :
    n ≤ (jsCeilDiv n s).toNat * s.toNat := by
  have hb := le_jsCeilDiv_mul n s hs
  have h0 := jsCeilDiv_nonneg n s hs
  have hcast : (((jsCeilDiv n s).toNat * s.toNat : Nat) : Int) = jsCeilDiv n s * s := by
    push_cast [Int.toNat_of_nonneg h0, Int.toNat_of_nonneg (by omega : (0:Int) ≤ s)]
    ring
  have : (n : Int) ≤ (((jsCeilDiv n s).toNat * s.toNat : Nat) : Int) := by
    rw [hcast]; exact hb
  exact_mod_cast this

/-- Helper: the slice of page number `p+1` (0-based `p`) under width `s`. -/
theorem jsSlice_page {α : Type} (l : List α) (p : Nat) (s : Int) (hs : 1 ≤ s) :
    jsSlice l ((p : Int) * s) ((p : Int) * s + s)
      = (l.drop (p * s.toNat)).take s.toNat := by
  have hs0 : (0:Int) ≤ s := by omega
  have h1 : ((p * s.toNat : Nat) : Int) = (p : Int) * s := by
    push_cast [Int.toNat_of_nonneg hs0]; ring
  have h2 : ((p * s.toNat + s.toNat : Nat) : Int) = (p : Int) * s + s := by
    push_cast [Int.toNat_of_nonneg hs0]; ring
  rw [← h2, ← h1, jsSlice_coe_nat]
  congr 1
  omega

/-- Helper: a slice starting at or beyond the length is empty. -/
theorem jsSlice_start_past_end {α : Type} (l : List α) (a b : Int)
    (ha : (l.length : Int) ≤ a) : jsSlice l a b = [] := by
  unfold jsSlice jsSliceIndex
  have h1 : ¬ (a < 0) := by omega
  simp only [h1, if_false]
  have h2 : min a.toNat l.length = l.length := by
    rw [min_eq_right]
    omega
  rw [h2]
  apply List.drop_eq_nil_of_le
  rw [List.length_take]
  omega

/-- Helper: the slice returned by `searchLogs`, spelled out. -/
theorem searchLogs_entries_eq (entries : List ConfirmationLogEntry)
    (params : LogSearchParams) :
    (searchLogs entries params).entries
      = jsSlice (sortLogEntries (filterLogEntries entries params))
          ((jsOrInt params.page 1 - 1) * jsOrInt params.pageSize 10)
          ((jsOrInt params.page 1 - 1) * jsOrInt params.pageSize 10
            + jsOrInt params.pageSize 10) := rfl

/-- Helper: the page count returned by `searchLogs`, spelled out. -/
theorem searchLogs_totalPages_eq (entries : List ConfirmationLogEntry)
    (params : LogSearchParams) :
    (searchLogs entries params).totalPages
      = jsCeilDiv (sortLogEntries (filterLogEntries entries params)).length
          (jsOrInt params.pageSize 10) := rfl

/-- Helper: filtering ignores the page field. -/
theorem filterLogEntries_page_irrelevant (entries : List ConfirmationLogEntry)
    (params : LogSearchParams) (x : Option Int) :
    filterLogEntries entries { params with page := x }
      = filterLogEntries entries params := rfl

/-- Helper: the pageSize field is unaffected by a page override. -/
theorem pageSize_of_page_update (params : LogSearchParams) (x : Option Int) :
    ({ params with page := x } : LogSearchParams).pageSize = params.pageSize := rfl

/-- Helper: concatenating the entries of pages 1..totalPages reproduces the
whole filtered and sorted sequence, for any positive supplied page size. -/
theorem searchLogs_pages_concat (entries : List ConfirmationLogEntry)
    (params : LogSearchParams) (ps : Int)
    (hps : params.pageSize = some ps) (h1 : 1 ≤ ps) :
    List.flatten ((List.range (searchLogs entries params).totalPages.toNat).map
        (fun p : Nat => (searchLogs entries { params with page := some ((p : Int) + 1) }).entries))
      = sortLogEntries (filterLogEntries entries params) := by
  have hsize : jsOrInt params.pageSize 10 = ps := by
    rw [hps, jsOrInt_some, if_neg (show ¬ ps = 0 by omega)]
  have key : ∀ p : Nat,
      (searchLogs entries { params with page := some ((p : Int) + 1) }).entries
        = ((sortLogEntries (filterLogEntries entries params)).drop (p * ps.toNat)).take
            ps.toNat := by
    intro p
    rw [searchLogs_entries_eq, filterLogEntries_page_irrelevant]
    have hpage : jsOrInt ({ params with page := some ((p : Int) + 1) } :
        LogSearchParams).page 1 = (p : Int) + 1 := by
      show jsOrInt (some ((p : Int) + 1)) 1 = (p : Int) + 1
      rw [jsOrInt_some, if_neg (show ¬ (p : Int) + 1 = 0 by omega)]
    rw [hpage, pageSize_of_page_update, hsize]
    have harith : (p : Int) + 1 - 1 = (p : Int) := by ring
    rw [harith, jsSlice_page _ p ps h1]
  rw [List.map_congr_left (fun p _ => key p)]
  rw [searchLogs_totalPages_eq, hsize]
  exact flatten_take_chunks _ _ ps.toNat (by omega)
    (nat_le_ceil_toNat_mul _ ps h1)

/-- Helper: a requested page beyond totalPages returns an empty slice. -/
theorem searchLogs_beyond_empty (entries : List ConfirmationLogEntry)
    (params : LogSearchParams) (ps page : Int)
    (hps : params.pageSize = some ps) (h1 : 1 ≤ ps)
    (hpage : params.page = some page)
    (hbeyond : (searchLogs entries params).totalPages < page) :
    (searchLogs entries params).entries = [] := by
  have hsize : jsOrInt params.pageSize 10 = ps := by
    rw [hps, jsOrInt_some, if_neg (show ¬ ps = 0 by omega)]
  rw [searchLogs_totalPages_eq, hsize] at hbeyond
  have htp := jsCeilDiv_nonneg
    (sortLogEntries (filterLogEntries entries params)).length ps h1
  have hpagene : page ≠ 0 := by omega
  have hjp : jsOrInt params.page 1 = page := by
    rw [hpage, jsOrInt_some, if_neg hpagene]
  rw [searchLogs_entries_eq, hjp, hsize]
  apply jsSlice_start_past_end
  have hb := le_jsCeilDiv_mul
    (sortLogEntries (filterLogEntries entries params)).length ps h1
  have hle : jsCeilDiv (sortLogEntries (filterLogEntries entries params)).length ps
      ≤ page - 1 := by omega
  have hmul := mul_le_mul_of_nonneg_right hle (show (0:Int) ≤ ps by omega)
  linarith

/-- C3 (amended): page defaults to 1 and a falsy page 0 also falls back to 1;
pageSize defaults to 10, a supplied pageSize is capped above at 100 and a
falsy 0 falls back to 10, but a negative pageSize passes through unclamped;
totalPages = ceil(totalCount / pageSize) over the effective page size; for a
supplied pageSize ≥ 1, the concatenation of the entries slices over pages
1..totalPages equals the whole filtered and sorted sequence, so the entry
counts across all pages sum to totalCount, and a requested page beyond
totalPages returns an empty entries slice without error; a negative page is
neither rejected nor clamped (it selects a slice addressed from the end of
the sequence). -/
theorem search_pagination_amended :
    (∀ entries args, args.page = none →
        (handleSearchLogs entries args).currentPage = 1) ∧
    (∀ entries args, args.page = some 0 →
        (handleSearchLogs entries args).currentPage = 1) ∧
    (∀ entries args, args.pageSize = none →
        (handleSearchLogs entries args).pageSize = 10) ∧
    (∀ entries args, args.pageSize = some 0 →
        (handleSearchLogs entries args).pageSize = 10) ∧
    (∀ entries args v, args.pageSize = some v → v ≠ 0 →
        (handleSearchLogs entries args).pageSize = min v 100) ∧
    (∀ entries params,
        (searchLogs entries params).totalCount
          = ((sortLogEntries (filterLogEntries entries params)).length : Int) ∧
        (searchLogs entries params).totalPages
          = jsCeilDiv (searchLogs entries params).totalCount
              (jsOrInt params.pageSize 10)) ∧
    (∀ entries params ps, params.pageSize = some ps → 1 ≤ ps →
        List.flatten ((List.range (searchLogs entries params).totalPages.toNat).map
            (fun p : Nat => (searchLogs entries
              { params with page := some ((p : Int) + 1) }).entries))
          = sortLogEntries (filterLogEntries entries params)) ∧
    (∀ entries params ps page, params.pageSize = some ps → 1 ≤ ps →
        params.page = some page →
        (searchLogs entries params).totalPages < page →
        (searchLogs entries params).entries = []) := by
  refine ⟨?_, ?_, ?_, ?_, ?_, ?_, ?_, ?_⟩
  · intro entries args h
    simp [handleSearchLogs, handleSearchLogsParams, searchLogs, jsOrInt, h]
  · intro entries args h
    simp [handleSearchLogs, handleSearchLogsParams, searchLogs, jsOrInt, h]
  · intro entries args h
    simp [handleSearchLogs, handleSearchLogsParams, searchLogs, jsOrInt, h]
  · intro entries args h
    simp [handleSearchLogs, handleSearchLogsParams, searchLogs, jsOrInt, h]
  · intro entries args v h hv
    have hne : min v 100 ≠ 0 := by omega
    simp [handleSearchLogs, handleSearchLogsParams, searchLogs, jsOrInt, h, hne]
  · intro entries params
    exact ⟨rfl, rfl⟩
  · intro entries params ps hps h1
    exact searchLogs_pages_concat entries params ps hps h1
  · intro entries params ps page hps h1 hpage hbeyond
    exact searchLogs_beyond_empty entries params ps page hps h1 hpage hbeyond

/-- Witness for C3: three concrete records at page size 2 concatenate back to
the sorted filtered sequence across their two pages. -/
theorem search_pagination_amended_witness :
    List.flatten ((List.range (searchLogs
        [entry1015, entry1045, entryAt "2025-08-04T09:00:00Z"]
        { pageSize := some 2 }).totalPages.toNat).map
        (fun p : Nat => (searchLogs [entry1015, entry1045, entryAt "2025-08-04T09:00:00Z"]
          { (({ pageSize := some 2 } : LogSearchParams)) with
              page := some ((p : Int) + 1) }).entries))
      = sortLogEntries (filterLogEntries
          [entry1015, entry1045, entryAt "2025-08-04T09:00:00Z"]
          { pageSize := some 2 }) := by
  exact search_pagination_amended.2.2.2.2.2.2.1
    [entry1015, entry1045, entryAt "2025-08-04T09:00:00Z"]
    { pageSize := some 2 } 2 rfl (by decide)

/-- C3 counterexample: a supplied pageSize of -5 flows through
`Math.min(pageSize, 100)` and the falsy check unchanged, so the effective
page size is -5 rather than a value in [1, 100]; and a negative page is
neither rejected nor clamped: with 12 records and pageSize 10, page -1
produces a 2-element slice addressed from the end of the sequence, which is
neither an error, nor empty, nor page 1's ten entries. -/
theorem search_pagination_unclamped_counterexample :
    (handleSearchLogs [] { pageSize := some (-5) }).pageSize = -5 ∧
    (searchLogs (List.replicate 12 entry1015)
        { page := some (-1), pageSize := some 10 }).entries.length = 2 := by
  exact ⟨rfl, rfl⟩

end McpConfirm
